import Mathlib

/-!
Shallow embedding of the CAC40 dashboard script (`streamlit.py`): the
per-president return series, the per-president summary statistics, the
one-way-ANOVA comparison step, the significance banner and the
best-performance conclusion, together with theorems checking the
specification's claims against the embedded code.

Prices and returns are modelled as exact rationals; float results that can
be NaN or infinite are modelled by the observable type `PFloat`.
-/

namespace CAC40

/-- Observable model of an IEEE double as produced by the numeric libraries:
an exact (rational) finite value, one of the two infinities, or NaN. -/
inductive PFloat where
  | real (q : ℚ)
  | posInf
  | negInf
  | nan
deriving DecidableEq

/-- Float subtraction on the observable model: finite arithmetic is exact,
NaN propagates, infinities follow IEEE-754. -/
def PFloat.sub : PFloat → PFloat → PFloat
  | .real a, .real b => .real (a - b)
  | .nan, _ => .nan
  | _, .nan => .nan
  | .posInf, .negInf => .posInf
  | .posInf, .posInf => .nan
  | .posInf, .real _ => .posInf
  | .negInf, .posInf => .negInf
  | .negInf, .negInf => .nan
  | .negInf, .real _ => .negInf
  | .real _, .posInf => .negInf
  | .real _, .negInf => .posInf

/-- Float division on the observable model, after numpy float64 semantics:
division by zero yields NaN (for 0/0) or a signed infinity (never an
exception), NaN propagates, a finite value divided by an infinity is 0. -/
def PFloat.div : PFloat → PFloat → PFloat
  | .real a, .real b =>
      if b = 0 then
        if a = 0 then .nan else if 0 < a then .posInf else .negInf
      else .real (a / b)
  | .nan, _ => .nan
  | _, .nan => .nan
  | .posInf, .posInf => .nan
  | .posInf, .negInf => .nan
  | .negInf, .posInf => .nan
  | .negInf, .negInf => .nan
  | .posInf, .real b => if b < 0 then .negInf else .posInf
  | .negInf, .real b => if b < 0 then .posInf else .negInf
  | .real _, .posInf => .real 0
  | .real _, .negInf => .real 0

/-- Tail worker for `pctChange`: given the previous price, the percentage
change of each remaining element with respect to its predecessor. -/
def pctChangeAux (prev : ℚ) : List ℚ → List (Option ℚ)
  | [] => []
  | x :: rest => some (x / prev - 1) :: pctChangeAux x rest

/-- Model of `data.pct_change()` (source line 50): the leading element is
missing (`none`, pandas NaN), each later element is `p[i]/p[i-1] - 1`.
Prices are positive per the spec input contract, so no other element is
missing. -/
def pctChange : List ℚ → List (Option ℚ)
  | [] => []
  | x :: rest => none :: pctChangeAux x rest

/-- Model of `.dropna()`: keep exactly the present elements. -/
def dropna (xs : List (Option ℚ)) : List ℚ := xs.filterMap id

/-- Source line 50: `returns = data.pct_change().dropna()`. Total — a
series of length 0 or 1 simply yields the empty list. -/
def compute_returns (data : List ℚ) : List ℚ := dropna (pctChange data)

/-- Rational square root used inside the standard-deviation model: exact on
perfect squares (in particular `qSqrt 0 = 0`, the only case any claim
observes), and for other positive inputs a positive rational stand-in for
the irrational float value. -/
def qSqrt (q : ℚ) : ℚ :=
  if q ≤ 0 then 0
  else
    let n := q.num.toNat
    let d := q.den
    if Nat.sqrt n * Nat.sqrt n = n ∧ Nat.sqrt d * Nat.sqrt d = d then
      (Nat.sqrt n : ℚ) / (Nat.sqrt d : ℚ)
    else q

/-- Model of `returns.mean()` (source line 52): NaN on an empty series,
else the arithmetic mean. -/
def seriesMean : List ℚ → PFloat
  | [] => .nan
  | x :: rest => .real (((x :: rest).sum) / (((x :: rest).length : ℚ)))

/-- Sample variance with ddof = 1, the radicand of the pandas `std`.
Meaningful only for series of length at least 2. -/
def sampleVar (xs : List ℚ) : ℚ :=
  let μ := xs.sum / (xs.length : ℚ)
  (xs.map (fun x => (x - μ) ^ 2)).sum / ((xs.length : ℚ) - 1)

/-- Model of `returns.std()` (source line 51): pandas sample standard
deviation (ddof = 1), NaN for fewer than 2 observations. -/
def seriesStd (xs : List ℚ) : PFloat :=
  if xs.length < 2 then .nan else .real (qSqrt (sampleVar xs))

/-- Population moment of order `k` about the mean, used by the skewness and
kurtosis models. -/
def popMoment (k : ℕ) (xs : List ℚ) : ℚ :=
  let μ := xs.sum / (xs.length : ℚ)
  (xs.map (fun x => (x - μ) ^ k)).sum / (xs.length : ℚ)

/-- Model of `returns.skew()` (source line 55). Modelled from the spec:
"skewness (third standardized moment)"; the pandas contract makes it NaN
for fewer than 3 observations, which is the only branch any claim
observes. -/
def seriesSkew (xs : List ℚ) : PFloat :=
  if xs.length < 3 then .nan
  else .real (popMoment 3 xs / qSqrt ((popMoment 2 xs) ^ 3))

/-- Model of `returns.kurt()` (source line 56). Modelled from the spec:
"excess kurtosis (fourth standardized moment − 3)"; the pandas contract
makes it NaN for fewer than 4 observations. -/
def seriesKurt (xs : List ℚ) : PFloat :=
  if xs.length < 4 then .nan
  else .real (popMoment 4 xs / (popMoment 2 xs) ^ 2 - 3)

/-- Modelled from the spec: the numeric p-value of the Shapiro-Wilk
normality test is computed by the external statistics library (scipy),
outside this repository; its value is an uninterpreted stand-in. Only the
minimum-sample-size contract of `shapiro` matters to any claim. -/
def shapiroP (_xs : List ℚ) : ℚ := 1 / 2

/-- Model of `stats.shapiro(returns)` (source line 57): scipy raises
`ValueError` when the sample has fewer than 3 observations, otherwise
returns a test result whose p-value field we keep. -/
def shapiro (xs : List ℚ) : Except String PFloat :=
  if xs.length < 3 then .error "ValueError: Data must be at least length 3."
  else .ok (.real (shapiroP xs))

/-- Model of source line 53, `perf = ((data.iloc[-1] / data.iloc[0]) - 1)`:
pandas `iloc` raises `IndexError` on an empty series; otherwise the float
quotient of last and first price, minus 1. -/
def totalPerf (data : List ℚ) : Except String PFloat :=
  match data with
  | [] => .error "IndexError: single positional indexer is out-of-bounds"
  | x :: rest =>
      .ok (PFloat.sub (PFloat.div (PFloat.real ((x :: rest).getLastI))
        (PFloat.real x)) (PFloat.real 1))

/-- One row of the summary table (source lines 59-68). -/
structure SummaryRecord where
  president : String
  mean : PFloat
  vol : PFloat
  perf : PFloat
  sharpe : PFloat
  skew : PFloat
  kurt : PFloat
  normalPvalue : PFloat
deriving DecidableEq

/-- One iteration of the per-president loop (source lines 50-68), in source
order: returns, volatility, mean, total performance, Sharpe ratio,
skewness, kurtosis, Shapiro-Wilk p-value. The two library calls that can
raise (`iloc` on line 53 and `stats.shapiro` on line 57) abort in exactly
the order the script executes them; there is no `try`/`except` in the
source. -/
def summarize (name : String) (data : List ℚ) : Except String SummaryRecord :=
  let returns := compute_returns data
  let vol := seriesStd returns
  let mean := seriesMean returns
  match totalPerf data with
  | .error e => .error e
  | .ok perf =>
      match shapiro returns with
      | .error e => .error e
      | .ok normal =>
          .ok { president := name, mean := mean, vol := vol, perf := perf,
                sharpe := PFloat.div mean vol, skew := seriesSkew returns,
                kurt := seriesKurt returns, normalPvalue := normal }

/-- The download-and-summarize loop (source lines 42-70): sequentially
builds `summary_stats` and `assets`; the first exception aborts the whole
pass, exactly as in the script (which has no error handling around the
loop body). -/
def analysisPass :
    List (String × List ℚ) → Except String (List SummaryRecord × List (String × List ℚ))
  | [] => .ok ([], [])
  | (name, data) :: rest =>
      match summarize name data with
      | .error e => .error e
      | .ok rec =>
          match analysisPass rest with
          | .error e => .error e
          | .ok (recs, assets) =>
              .ok (rec :: recs, (name, compute_returns data) :: assets)

/-- Source line 78, the list comprehension
`[assets[p] for p in presidents if not assets[p].empty]`: the groups handed
to the ANOVA are exactly the non-empty return series, in president order. -/
def eligible_groups (assets : List (String × List ℚ)) : List (List ℚ) :=
  (assets.filter (fun a => !a.2.isEmpty)).map Prod.snd

/-- Modelled from the spec: the F-statistic of the one-way ANOVA is
computed by the external statistics library (scipy); its value is an
uninterpreted stand-in. -/
def fOnewayStat (_groups : List (List ℚ)) : ℚ := 0

/-- Modelled from the spec: the p-value of the one-way ANOVA is computed by
the external statistics library (scipy); its value is an uninterpreted
stand-in. -/
def fOnewayP (_groups : List (List ℚ)) : ℚ := 1

/-- Model of `stats.f_oneway(*groups)`: scipy raises `TypeError` when it is
given fewer than two groups; otherwise it returns the F-statistic and
p-value pair. -/
def f_oneway (groups : List (List ℚ)) : Except String (ℚ × ℚ) :=
  if groups.length < 2 then .error "TypeError: at least two inputs are required"
  else .ok (fOnewayStat groups, fOnewayP groups)

/-- Source lines 78-81: the comparison step invokes `stats.f_oneway`
directly on the eligible groups; the script performs no check on the number
of eligible groups before the call. -/
def compare (assets : List (String × List ℚ)) : Except String (ℚ × ℚ) :=
  f_oneway (eligible_groups assets)

/-- The whole analysis pass of the script body: the per-president loop
followed by the comparison step. -/
def runAnalysis (priceData : List (String × List ℚ)) :
    Except String (List SummaryRecord × (ℚ × ℚ)) :=
  match analysisPass priceData with
  | .error e => .error e
  | .ok (recs, assets) =>
      match compare assets with
      | .error e => .error e
      | .ok anova => .ok (recs, anova)

/-- The two branches of the significance banner (source lines 84-87). -/
inductive Banner where
  | significant
  | notSignificant
deriving DecidableEq

/-- Source lines 84-87: `if p_val <= 0.05: st.success(...) else:
st.warning(...)`. -/
def significance_banner (p_val : ℚ) : Banner :=
  if p_val ≤ 5 / 100 then .significant else .notSignificant

/-- Model of the pandas column `.max()` over the Total Performance values
(source line 165). -/
def seriesMax : List ℚ → ℚ
  | [] => 0
  | x :: rest => rest.foldl max x

/-- Model of the pandas column `.idxmax()` (source line 164): the positional
index of the first occurrence of the maximum. -/
def idxmax (xs : List ℚ) : ℕ := xs.indexOf (seriesMax xs)

/-- Source line 164: `best_president = df_summary.loc[idxmax, 'President']`,
over the rows (president, total performance) of the summary table. -/
def best_president (rows : List (String × ℚ)) : String :=
  (rows.getD (idxmax (rows.map Prod.snd)) ("", 0)).1

/-- Source line 165: `best_perf = df_summary['Total Performance'].max()`. -/
def best_perf (rows : List (String × ℚ)) : ℚ :=
  seriesMax (rows.map Prod.snd)

/-- Helper: dropping the missing values from the tail worker keeps one
return per consumed price. -/
theorem dropna_pctChangeAux_length (prev : ℚ) (l : List ℚ) :
    (dropna (pctChangeAux prev l)).length = l.length := by
  induction l generalizing prev with
  | nil => rfl
  | cons a t ih => simpa [pctChangeAux, dropna] using ih a

/-- Helper: the `i`-th surviving element of the tail worker is the
percentage change of `l[i]` with respect to its predecessor. -/
theorem dropna_pctChangeAux_getD (prev : ℚ) (l : List ℚ) (i : ℕ) (hi : i < l.length) :
    (dropna (pctChangeAux prev l)).getD i 0 = l.getD i 0 / (prev :: l).getD i 0 - 1 := by
  induction l generalizing prev i with
  | nil => simp at hi
  | cons a t ih =>
      cases i with
      | zero => simp [pctChangeAux, dropna]
      | succ i => simpa [pctChangeAux, dropna] using ih a i (by simpa using hi)

/-- C6 (confirmed): on a non-empty series of positive prices of length `n`,
`compute_returns` (source line 50, `data.pct_change().dropna()`) yields
exactly `n - 1` returns, the `i`-th being `(p[i+1] - p[i]) / p[i]`
(0-based, i.e. the claim's `(p[i] - p[i-1]) / p[i-1]`). -/
theorem compute_returns_spec (xs : List ℚ) (hne : xs ≠ []) (hpos : ∀ p ∈ xs, 0 < p) :
    (compute_returns xs).length = xs.length - 1 ∧
      ∀ i, i + 1 < xs.length →
        (compute_returns xs).getD i 0 =
          (xs.getD (i + 1) 0 - xs.getD i 0) / xs.getD i 0 := by
  match xs, hne with
  | x :: t, _ =>
      constructor
      · simpa [compute_returns, pctChange, dropna] using dropna_pctChangeAux_length x t
      · intro i hi
        have hi' : i < t.length := by simpa using hi
        have h1 : (compute_returns (x :: t)).getD i 0
            = t.getD i 0 / (x :: t).getD i 0 - 1 := by
          simpa [compute_returns, pctChange, dropna] using
            dropna_pctChangeAux_getD x t i hi'
        have hmem : (x :: t).getD i 0 ∈ x :: t := by
          rw [List.getD_eq_getElem _ _ (by simp; omega)]
          exact List.getElem_mem _
        have hb : (0 : ℚ) < (x :: t).getD i 0 := hpos _ hmem
        rw [h1, List.getD_cons_succ, sub_div, div_self (ne_of_gt hb)]

/-- C6 witness: the theorem applied to the prices `[100, 110, 121]`,
projected to the first return. -/
theorem compute_returns_spec_witness :
    (compute_returns [100, 110, 121]).getD 0 0 =
      (([100, 110, 121] : List ℚ).getD 1 0 - ([100, 110, 121] : List ℚ).getD 0 0) /
        ([100, 110, 121] : List ℚ).getD 0 0 :=
  (compute_returns_spec [100, 110, 121] (by simp)
    (by with_unfolding_all decide)).2 0 (by decide)

/-- C8 (confirmed): on a price series of length 0 or 1, `compute_returns`
is the empty list; the embedded operation is total, so no exception can
arise. -/
theorem compute_returns_short (xs : List ℚ) (h : xs.length ≤ 1) :
    compute_returns xs = [] := by
  match xs with
  | [] => rfl
  | [x] => rfl
  | x :: y :: t => simp at h

/-- C8 witness: the theorem applied to the one-point series `[7]`. -/
theorem compute_returns_short_witness : compute_returns [(7 : ℚ)] = [] :=
  compute_returns_short [7] (by decide)

/-- C9 (confirmed): the banner (source lines 84-87) classifies
"significant difference" exactly when the p-value is at most the fixed
constant 0.05, and "no significant difference" exactly when it exceeds
0.05. -/
theorem significance_threshold (p_val : ℚ) :
    (significance_banner p_val = Banner.significant ↔ p_val ≤ 5 / 100) ∧
      (significance_banner p_val = Banner.notSignificant ↔ 5 / 100 < p_val) := by
  unfold significance_banner
  by_cases h : p_val ≤ 5 / 100
  · rw [if_pos h]
    simp [h, not_lt.mpr h]
  · rw [if_neg h]
    simp [h, not_le.mp h]

/-- C1 counterexample: the claim says any period whose ReturnSeries has
fewer than 2 elements is excluded from the ANOVA input set, but the filter
on source line 78 only drops empty series: a single-element ReturnSeries is
included. -/
theorem singleton_group_in_anova_input :
    [(1 : ℚ) / 10] ∈
        eligible_groups [("A", [(1 : ℚ) / 10]), ("B", [1 / 10, 1 / 5, 3 / 10])] ∧
      ([(1 : ℚ) / 10]).length < 2 := by
  with_unfolding_all decide

/-- C1 (corrected): the comparison's input set is exactly the non-empty
ReturnSeries — a period is excluded if and only if its ReturnSeries is
empty, so series with a single element are passed to the ANOVA. -/
theorem eligible_groups_mem_iff (assets : List (String × List ℚ)) (g : List ℚ) :
    g ∈ eligible_groups assets ↔ (∃ name, (name, g) ∈ assets) ∧ g ≠ [] := by
  unfold eligible_groups
  constructor
  · intro hg
    rcases List.mem_map.mp hg with ⟨⟨n, l⟩, hmem, rfl⟩
    rcases List.mem_filter.mp hmem with ⟨ha, hp⟩
    exact ⟨⟨n, ha⟩, by simpa using hp⟩
  · rintro ⟨⟨n, hn⟩, hg⟩
    exact List.mem_map.mpr ⟨(n, g), List.mem_filter.mpr ⟨hn, by simpa using hg⟩, rfl⟩

/-- C2 (code bug): a single-price period has an empty ReturnSeries, and the
summary step then raises inside `stats.shapiro` (source line 57, which
requires at least 3 observations) instead of recording a NaN p-value — the
pass does raise, contradicting the claim. -/
theorem summarize_raises_on_empty_returns :
    compute_returns [100] = [] ∧
      summarize "Jacques Chirac" [100] =
        Except.error "ValueError: Data must be at least length 3." := by
  constructor
  · rfl
  · with_unfolding_all rfl

/-- C3 (code bug): with a single eligible group the script still invokes
`stats.f_oneway` (source line 78 has no count check), which raises instead
of surfacing an "insufficient data" state. -/
theorem compare_crashes_without_group_check :
    eligible_groups [("Jacques Chirac", [1 / 4, 1 / 4, 1 / 4]), ("Nicolas Sarkozy", []),
          ("Francois Hollande", []), ("Emmanuel Macron", [])] =
        [[1 / 4, 1 / 4, 1 / 4]] ∧
      compare [("Jacques Chirac", [1 / 4, 1 / 4, 1 / 4]), ("Nicolas Sarkozy", []),
          ("Francois Hollande", []), ("Emmanuel Macron", [])] =
        Except.error "TypeError: at least two inputs are required" := by
  constructor
  · with_unfolding_all rfl
  · with_unfolding_all rfl

/-- C4 (code bug): the per-president loop (source lines 42-70) has no error
handling, so one period with an empty PriceSeries aborts the whole pass
(first conjunct) even though the remaining periods would process fine on
their own (second conjunct). -/
theorem pass_aborts_on_single_period_failure :
    runAnalysis [("Jacques Chirac", []), ("Nicolas Sarkozy", [100, 200, 400, 800]),
          ("Francois Hollande", [100, 200, 400, 800])] =
        Except.error "IndexError: single positional indexer is out-of-bounds" ∧
      (runAnalysis [("Nicolas Sarkozy", [100, 200, 400, 800]),
          ("Francois Hollande", [100, 200, 400, 800])]).isOk = true := by
  constructor
  · with_unfolding_all rfl
  · with_unfolding_all rfl

/-- Helper: a successful `summarize` pins down the fields of the produced
record in terms of the embedded statistic functions. -/
theorem summarize_ok_fields (name : String) (data : List ℚ) (rec : SummaryRecord)
    (hok : summarize name data = Except.ok rec) :
    totalPerf data = Except.ok rec.perf ∧
      rec.vol = seriesStd (compute_returns data) ∧
      rec.sharpe = PFloat.div (seriesMean (compute_returns data))
        (seriesStd (compute_returns data)) := by
  simp only [summarize] at hok
  rcases hperf : totalPerf data with e | pv <;> rw [hperf] at hok
  · simp at hok
  · rcases hs : shapiro (compute_returns data) with e2 | nv <;> rw [hs] at hok
    · simp at hok
    · simp only [Except.ok.injEq] at hok
      subst hok
      exact ⟨rfl, rfl, rfl⟩

/-- Helper: dividing any float by the exact zero float never yields a
finite value, and never raises — the model is total. -/
theorem div_real_zero (x : PFloat) :
    (PFloat.div x (PFloat.real 0) = PFloat.nan ∨
        PFloat.div x (PFloat.real 0) = PFloat.posInf ∨
        PFloat.div x (PFloat.real 0) = PFloat.negInf) ∧
      PFloat.div x (PFloat.real 0) ≠ PFloat.real 0 := by
  cases x with
  | real a =>
      by_cases h0 : a = 0
      · simp [PFloat.div, h0]
      · by_cases hp : 0 < a
        · simp [PFloat.div, h0, hp]
        · simp [PFloat.div, h0, hp]
  | posInf => simp [PFloat.div]
  | negInf => simp [PFloat.div]
  | nan => simp [PFloat.div]

/-- C5 counterexample: on the prices `[64, 80, 100, 125]` all returns equal
`1/4`, the volatility is exactly 0, and the Sharpe field of the produced
record is `+inf` — not NaN, so the claim's "not-a-number" marker is wrong
for a zero-volatility series with non-zero mean. -/
theorem sharpe_infinite_not_nan_example :
    (summarize "X" [64, 80, 100, 125]).toOption.map SummaryRecord.vol =
        some (PFloat.real 0) ∧
      (summarize "X" [64, 80, 100, 125]).toOption.map SummaryRecord.sharpe =
        some PFloat.posInf ∧
      PFloat.posInf ≠ PFloat.nan :=
  ⟨by with_unfolding_all rfl, by with_unfolding_all rfl, by decide⟩

/-- C5 (corrected): whenever the volatility field of a produced record is
exactly zero, its Sharpe field is non-finite — NaN, `+inf` or `-inf` — and
in particular never the finite value 0; the embedded division is total, so
no division error is raised. -/
theorem sharpe_nonfinite_of_zero_vol (name : String) (data : List ℚ) (rec : SummaryRecord)
    (hok : summarize name data = Except.ok rec) (hvol : rec.vol = PFloat.real 0) :
    (rec.sharpe = PFloat.nan ∨ rec.sharpe = PFloat.posInf ∨
        rec.sharpe = PFloat.negInf) ∧
      rec.sharpe ≠ PFloat.real 0 := by
  obtain ⟨-, hv, hs⟩ := summarize_ok_fields name data rec hok
  rw [hs, ← hv, hvol]
  exact div_real_zero _

/-- C5 witness: the theorem applied to the prices `[64, 80, 100, 125]`,
whose record has volatility 0 and Sharpe `+inf`. -/
theorem sharpe_nonfinite_of_zero_vol_witness :
    (PFloat.posInf = PFloat.nan ∨ PFloat.posInf = PFloat.posInf ∨
        PFloat.posInf = PFloat.negInf) ∧
      PFloat.posInf ≠ PFloat.real 0 :=
  sharpe_nonfinite_of_zero_vol "X" [64, 80, 100, 125]
    { president := "X", mean := PFloat.real (1 / 4), vol := PFloat.real 0,
      perf := PFloat.real (61 / 64), sharpe := PFloat.posInf, skew := PFloat.real 0,
      kurt := PFloat.nan, normalPvalue := PFloat.real (1 / 2) }
    (by with_unfolding_all rfl) rfl

/-- C7 (confirmed): for a series of at least 2 positive prices, a
successful summary's total-performance field equals
`prices[-1] / prices[0] - 1`, and the underlying computation (source line
53) depends only on the first and the last price — feeding it just those
two prices yields the same result. -/
theorem perf_eq_last_over_first (name : String) (data : List ℚ) (rec : SummaryRecord)
    (hlen : 2 ≤ data.length) (hpos : ∀ p ∈ data, 0 < p)
    (hok : summarize name data = Except.ok rec) :
    rec.perf = PFloat.real (data.getLastI / data.headI - 1) ∧
      totalPerf data = totalPerf [data.headI, data.getLastI] := by
  obtain ⟨hperf, -, -⟩ := summarize_ok_fields name data rec hok
  match data, hlen, hpos, hperf with
  | x :: t, _, hpos, hperf =>
      have hx : x ≠ 0 := ne_of_gt (hpos x (List.mem_cons_self x t))
      have hTP : totalPerf (x :: t) =
          Except.ok (PFloat.real ((x :: t).getLastI / x - 1)) := by
        simp [totalPerf, PFloat.div, PFloat.sub, hx]
      constructor
      · rw [hTP] at hperf
        injection hperf with h
        rw [← h]
        rfl
      · rfl

/-- C7 witness: the theorem applied to the prices `[100, 200, 400, 800]`
and the record they produce. -/
theorem perf_eq_last_over_first_witness :
    ({ president := "X", mean := PFloat.real 1, vol := PFloat.real 0,
        perf := PFloat.real 7, sharpe := PFloat.posInf, skew := PFloat.real 0,
        kurt := PFloat.nan, normalPvalue := PFloat.real (1 / 2) } : SummaryRecord).perf =
        PFloat.real (([100, 200, 400, 800] : List ℚ).getLastI /
          ([100, 200, 400, 800] : List ℚ).headI - 1) ∧
      totalPerf [100, 200, 400, 800] =
        totalPerf [([100, 200, 400, 800] : List ℚ).headI,
          ([100, 200, 400, 800] : List ℚ).getLastI] :=
  perf_eq_last_over_first "X" [100, 200, 400, 800]
    { president := "X", mean := PFloat.real 1, vol := PFloat.real 0,
      perf := PFloat.real 7, sharpe := PFloat.posInf, skew := PFloat.real 0,
      kurt := PFloat.nan, normalPvalue := PFloat.real (1 / 2) }
    (by decide) (by with_unfolding_all decide) (by with_unfolding_all rfl)

/-- Helper: the seed of a left fold by `max` is below the fold. -/
theorem le_foldl_max (l : List ℚ) : ∀ x : ℚ, x ≤ l.foldl max x := by
  induction l with
  | nil => intro x; exact le_refl x
  | cons y t ih => intro x; exact le_trans (le_max_left x y) (ih (max x y))

/-- Helper: every listed element is below a left fold by `max`. -/
theorem mem_le_foldl_max (l : List ℚ) : ∀ x v, v ∈ l → v ≤ l.foldl max x := by
  induction l with
  | nil => intro x v hv; cases hv
  | cons y t ih =>
      intro x v hv
      rcases List.mem_cons.mp hv with rfl | hv
      · exact le_trans (le_max_right x v) (le_foldl_max t (max x v))
      · exact ih (max x y) v hv

/-- Helper: a left fold by `max` is the seed or one of the elements. -/
theorem foldl_max_mem (l : List ℚ) : ∀ x : ℚ, l.foldl max x ∈ x :: l := by
  induction l with
  | nil => intro x; exact List.mem_cons_self x []
  | cons y t ih =>
      intro x
      rw [List.foldl_cons]
      rcases List.mem_cons.mp (ih (max x y)) with heq | hmem
      · rcases max_choice x y with h1 | h1 <;> rw [heq, h1]
        · exact List.mem_cons_self _ _
        · exact List.mem_cons_of_mem _ (List.mem_cons_self _ _)
      · exact List.mem_cons_of_mem _ (List.mem_cons_of_mem _ hmem)

/-- Helper: the column maximum of a non-empty series is attained. -/
theorem seriesMax_mem (xs : List ℚ) (hne : xs ≠ []) : seriesMax xs ∈ xs := by
  match xs, hne with
  | x :: t, _ => exact foldl_max_mem t x

/-- Helper: the column maximum bounds every element. -/
theorem le_seriesMax (xs : List ℚ) (v : ℚ) (hv : v ∈ xs) : v ≤ seriesMax xs := by
  match xs, hv with
  | x :: t, hv =>
      rcases List.mem_cons.mp hv with rfl | hv
      · exact le_foldl_max t v
      · exact mem_le_foldl_max t x v hv

/-- C10 (confirmed): on a non-empty summary table, the president picked by
`idxmax` over the Total Performance column (source line 164) is one of the
rows, their total performance is exactly the reported best performance
(source line 165), and that value bounds every row's total performance. -/
theorem best_president_attains_max (rows : List (String × ℚ)) (hne : rows ≠ []) :
    (∃ r ∈ rows, r.1 = best_president rows ∧ r.2 = best_perf rows) ∧
      ∀ r ∈ rows, r.2 ≤ best_perf rows := by
  have hvals : rows.map Prod.snd ≠ [] := by
    simpa using hne
  have hm : seriesMax (rows.map Prod.snd) ∈ rows.map Prod.snd :=
    seriesMax_mem _ hvals
  have hidx : idxmax (rows.map Prod.snd) < (rows.map Prod.snd).length := by
    rw [idxmax]
    exact List.indexOf_lt_length.mpr hm
  have hidx' : idxmax (rows.map Prod.snd) < rows.length := by
    simpa using hidx
  constructor
  · refine ⟨rows.getD (idxmax (rows.map Prod.snd)) ("", 0), ?_, rfl, ?_⟩
    · rw [List.getD_eq_getElem _ _ hidx']
      exact List.getElem_mem hidx'
    · have h2 : (rows.getD (idxmax (rows.map Prod.snd)) ("", 0)).2 =
          (rows.map Prod.snd).getD (idxmax (rows.map Prod.snd)) 0 := by
        rw [List.getD_eq_getElem _ _ hidx', List.getD_eq_getElem _ _ hidx]
        exact (List.getElem_map Prod.snd).symm
      have h3 : (rows.map Prod.snd).getD (idxmax (rows.map Prod.snd)) 0 =
          seriesMax (rows.map Prod.snd) := by
        rw [List.getD_eq_getElem _ _ hidx]
        exact List.getElem_indexOf hidx
      rw [h2, h3]
      rfl
  · intro r hr
    exact le_seriesMax _ _ (List.mem_map_of_mem Prod.snd hr)

/-- C10 witness: the theorem applied to the four-president table of the
spec's end-to-end scenario, where Jacques Chirac attains the maximum. -/
theorem best_president_attains_max_witness :
    (∃ r ∈ ([("Jacques Chirac", (21 : ℚ) / 100), ("Nicolas Sarkozy", -(19 : ℚ) / 100),
          ("Francois Hollande", 0), ("Emmanuel Macron", 0)] : List (String × ℚ)),
        r.1 = best_president [("Jacques Chirac", (21 : ℚ) / 100),
            ("Nicolas Sarkozy", -(19 : ℚ) / 100), ("Francois Hollande", 0),
            ("Emmanuel Macron", 0)] ∧
          r.2 = best_perf [("Jacques Chirac", (21 : ℚ) / 100),
            ("Nicolas Sarkozy", -(19 : ℚ) / 100), ("Francois Hollande", 0),
            ("Emmanuel Macron", 0)]) ∧
      ∀ r ∈ ([("Jacques Chirac", (21 : ℚ) / 100), ("Nicolas Sarkozy", -(19 : ℚ) / 100),
          ("Francois Hollande", 0), ("Emmanuel Macron", 0)] : List (String × ℚ)),
        r.2 ≤ best_perf [("Jacques Chirac", (21 : ℚ) / 100),
          ("Nicolas Sarkozy", -(19 : ℚ) / 100), ("Francois Hollande", 0),
          ("Emmanuel Macron", 0)] :=
  best_president_attains_max
    [("Jacques Chirac", (21 : ℚ) / 100), ("Nicolas Sarkozy", -(19 : ℚ) / 100),
      ("Francois Hollande", 0), ("Emmanuel Macron", 0)] (by simp)

end CAC40
